import Mathlib

/-!
Verification of the `uph-gpkk` procedural building generators.

The repository contains three Python scripts that generate a parametric
multi-story building mesh and serialize it into a glTF-style document plus a
packed binary buffer:

  * `building_generator.py`     (v1: single merged mesh, position + index
    accessors, min/max bounds on the position accessor),
  * `building_generator_v2.py`  (v2: single merged mesh with normals, beams
    in both horizontal directions, braces, shear walls, core),
  * `building_generator_v3.py`  (v3: named mesh groups, semantic tags, two
    LOD levels, per-group buffer packing via `append_mesh`).

This file gives a shallow embedding of those scripts.  Python floats are
idealized as exact rationals (`ℚ`) for all arithmetic the scripts perform
exactly in structure (halving, scaling, offsetting), and as reals (`ℝ`) where
`math.sqrt` enters (normal normalization).  The IEEE-754 bit encoding done by
`struct.pack` is abstracted: a packed byte is tagged with the value it came
from and its byte position, which preserves exactly the byte-count and layout
facts the specification states.  List indexing that can raise in Python
(`IndexError`, tuple-unpacking `ValueError`, `ZeroDivisionError`,
`struct.pack` range errors) is modelled with `Option`/`Except`.
-/

/-- A 3-component vertex / vector, `(x, y, z)`. -/
abbrev V3q : Type := ℚ × ℚ × ℚ

/-- A 3-component real vector, used for normalized normals. -/
abbrev V3r : Type := ℝ × ℝ × ℝ

/-- `create_box` from `building_generator_v3.py` lines 27-42 (identical to
`building_generator.py` lines 21-37 and `building_generator_v2.py` lines
24-39): the 8 corner vertices of an axis-aligned box of dimensions
`w × h × d` translated by the center `(tx, ty, tz)`, plus a fixed 36-entry
index list (12 triangles, 6 quad faces split in two). -/
def create_box (w h d : ℚ) (tx ty tz : ℚ) : List V3q × List ℕ :=
  let hw := w/2
  let hh := h/2
  let hd := d/2
  let verts : List V3q := [
    (-hw,-hh, hd), ( hw,-hh, hd), ( hw, hh, hd), (-hw, hh, hd),
    (-hw,-hh,-hd), ( hw,-hh,-hd), ( hw, hh,-hd), (-hw, hh,-hd)]
  let verts := verts.map (fun p => (p.1+tx, p.2.1+ty, p.2.2+tz))
  let indices : List ℕ := [
    0,1,2,2,3,0,
    1,5,6,6,2,1,
    5,4,7,7,6,5,
    4,0,3,3,7,4,
    3,2,6,6,7,3,
    4,5,1,1,0,4]
  (verts, indices)

/-- The 8 corner positions the spec describes: "the 8 combinations of
(±w/2, ±h/2, ±d/2) translated by (tx,ty,tz)".  Stated from the spec's words,
to be compared with the vertex list `create_box` actually produces. -/
def boxCornerSet (w h d : ℚ) (tx ty tz : ℚ) : Finset V3q :=
  ((([-1, 1] : List ℚ).flatMap fun sx =>
    (([-1, 1] : List ℚ).flatMap fun sy =>
      (([-1, 1] : List ℚ).map fun sz =>
        ((sx*(w/2)+tx, sy*(h/2)+ty, sz*(d/2)+tz) : V3q)))) ).toFinset

/-- C3: for every positive box dimension triple and every center, `create_box`
returns exactly 8 vertices — equal as a set to the 8 combinations of
(±w/2, ±h/2, ±d/2) translated by the center — and the fixed 36-entry index
list encoding 12 triangles whose indices all lie in `[0, 8)`. -/
theorem create_box_spec (w h d tx ty tz : ℚ)
    (hw : 0 < w) (hh : 0 < h) (hd : 0 < d) :
    (create_box w h d tx ty tz).1.length = 8 ∧
    (create_box w h d tx ty tz).1.toFinset = boxCornerSet w h d tx ty tz ∧
    (create_box w h d tx ty tz).2 =
      [0,1,2,2,3,0, 1,5,6,6,2,1, 5,4,7,7,6,5,
       4,0,3,3,7,4, 3,2,6,6,7,3, 4,5,1,1,0,4] ∧
    (create_box w h d tx ty tz).2.length = 36 ∧
    ∀ i ∈ (create_box w h d tx ty tz).2, i < 8 := by
  refine ⟨rfl, ?_, rfl, rfl, ?_⟩
  · have h1 : (create_box w h d tx ty tz).1 = [
        (-(w/2)+tx, -(h/2)+ty, d/2+tz), (w/2+tx, -(h/2)+ty, d/2+tz),
        (w/2+tx, h/2+ty, d/2+tz), (-(w/2)+tx, h/2+ty, d/2+tz),
        (-(w/2)+tx, -(h/2)+ty, -(d/2)+tz), (w/2+tx, -(h/2)+ty, -(d/2)+tz),
        (w/2+tx, h/2+ty, -(d/2)+tz), (-(w/2)+tx, h/2+ty, -(d/2)+tz)] := rfl
    have h2 : boxCornerSet w h d tx ty tz = ([
        (-(w/2)+tx, -(h/2)+ty, -(d/2)+tz), (-(w/2)+tx, -(h/2)+ty, d/2+tz),
        (-(w/2)+tx, h/2+ty, -(d/2)+tz), (-(w/2)+tx, h/2+ty, d/2+tz),
        (w/2+tx, -(h/2)+ty, -(d/2)+tz), (w/2+tx, -(h/2)+ty, d/2+tz),
        (w/2+tx, h/2+ty, -(d/2)+tz), (w/2+tx, h/2+ty, d/2+tz)] :
        List V3q).toFinset := by
      simp only [boxCornerSet, List.flatMap_cons, List.flatMap_nil,
        List.map_cons, List.map_nil, List.append_nil, List.cons_append,
        List.nil_append, neg_one_mul, one_mul]
    rw [h1, h2]
    ext p
    simp only [List.mem_toFinset, List.mem_cons, List.not_mem_nil, or_false]
    tauto
  · intro i hi
    have h3 : (create_box w h d tx ty tz).2 =
        [0,1,2,2,3,0, 1,5,6,6,2,1, 5,4,7,7,6,5,
         4,0,3,3,7,4, 3,2,6,6,7,3, 4,5,1,1,0,4] := rfl
    rw [h3] at hi
    simp only [List.mem_cons, List.not_mem_nil, or_false] at hi
    omega

/-- C3 witness: the spec conjunction holds at the concrete box
`create_box 2 3 4 (1, 1, 1)`. -/
theorem create_box_spec_witness :
    (0 : ℚ) < 2 ∧ (0 : ℚ) < 3 ∧ (0 : ℚ) < 4 ∧
    ((create_box 2 3 4 1 1 1).1.length = 8 ∧
     (create_box 2 3 4 1 1 1).1.toFinset = boxCornerSet 2 3 4 1 1 1 ∧
     (create_box 2 3 4 1 1 1).2 =
       [0,1,2,2,3,0, 1,5,6,6,2,1, 5,4,7,7,6,5,
        4,0,3,3,7,4, 3,2,6,6,7,3, 4,5,1,1,0,4] ∧
     (create_box 2 3 4 1 1 1).2.length = 36 ∧
     ∀ i ∈ (create_box 2 3 4 1 1 1).2, i < 8) :=
  ⟨by norm_num, by norm_num, by norm_num,
   create_box_spec 2 3 4 1 1 1 (by norm_num) (by norm_num) (by norm_num)⟩

/-- C10: `create_box` performs no dimension validation: it is total, and for
every width, height, depth (zero and negative values included) and every
center it returns 8 vertices and 36 indices; no `InvalidDimension` rejection
exists in the code. -/
theorem create_box_total (w h d tx ty tz : ℚ) :
    (create_box w h d tx ty tz).1.length = 8 ∧
    (create_box w h d tx ty tz).2.length = 36 := ⟨rfl, rfl⟩

/-- One `normals[idx] += (nx, ny, nz)` step of `compute_normals`
(`building_generator_v3.py` lines 54-57): componentwise accumulation into the
slot `idx` of the accumulator list.  (`List.set` is a no-op out of range; the
callers below only use it at indices below the accumulator length.) -/
def bumpNormal (normals : List V3q) (idx : ℕ) (n : V3q) : List V3q :=
  normals.set idx
    ((normals.getD idx (0,0,0)).1 + n.1,
     (normals.getD idx (0,0,0)).2.1 + n.2.1,
     (normals.getD idx (0,0,0)).2.2 + n.2.2)

/-- The triangle loop of `compute_normals` (`building_generator_v3.py` lines
46-57, identical in `building_generator_v2.py` lines 43-54): walk the index
list three at a time, compute the raw cross product of the two edge vectors of
each triangle, and accumulate it into the three vertex slots.  `none` models
the Python failure cases: an `IndexError` from `vertices[i]` and the
tuple-unpacking `ValueError` when fewer than 3 indices remain.
`faceNormal` is the per-triangle raw cross product of the two edge vectors
(`building_generator_v3.py` lines 49-53). -/
def faceNormal (v0 v1 v2 : V3q) : V3q :=
  let ux := v1.1 - v0.1
  let uy := v1.2.1 - v0.2.1
  let uz := v1.2.2 - v0.2.2
  let vx := v2.1 - v0.1
  let vy := v2.2.1 - v0.2.1
  let vz := v2.2.2 - v0.2.2
  (uy*vz - uz*vy, uz*vx - ux*vz, ux*vy - uy*vx)

def faceAccum (vertices : List V3q) : List ℕ → List V3q → Option (List V3q)
  | [], acc => some acc
  | i0 :: i1 :: i2 :: rest, acc =>
    match vertices[i0]?, vertices[i1]?, vertices[i2]? with
    | some v0, some v1, some v2 =>
      let n : V3q := faceNormal v0 v1 v2
      faceAccum vertices rest
        (bumpNormal (bumpNormal (bumpNormal acc i0 n) i1 n) i2 n)
    | _, _, _ => none
  | _, _ => none

/-- `normals = [[0,0,0] for _ in vertices]`: the zero-vector accumulator list,
one slot per vertex. -/
def zeroAcc (vertices : List V3q) : List V3q :=
  vertices.map (fun _ => ((0:ℚ), (0:ℚ), (0:ℚ)))

/-- The output step of `compute_normals` (`building_generator_v3.py` lines
59-61): `l = sqrt(n0² + n1² + n2²) + 1e-6; out.append((n0/l, n1/l, n2/l))`. -/
noncomputable def normalizeN (n : V3q) : V3r :=
  let l : ℝ := Real.sqrt ((n.1:ℝ)^2 + (n.2.1:ℝ)^2 + (n.2.2:ℝ)^2) + 1e-6
  ((n.1:ℝ)/l, (n.2.1:ℝ)/l, (n.2.2:ℝ)/l)

/-- `compute_normals` from `building_generator_v3.py` lines 44-62 (identical
in `building_generator_v2.py` lines 41-59): accumulate face normals, then
normalize every accumulator with the epsilon-guarded denominator. -/
noncomputable def compute_normals (vertices : List V3q) (indices : List ℕ) :
    Option (List V3r) :=
  (faceAccum vertices indices (zeroAcc vertices)).map (List.map normalizeN)

theorem bumpNormal_length (normals : List V3q) (idx : ℕ) (n : V3q) :
    (bumpNormal normals idx n).length = normals.length := by
  simp [bumpNormal]

theorem faceAccum_cons (vertices : List V3q) {i0 i1 i2 : ℕ} (rest : List ℕ)
    (acc : List V3q) (h0 : i0 < vertices.length) (h1 : i1 < vertices.length)
    (h2 : i2 < vertices.length) :
    faceAccum vertices (i0 :: i1 :: i2 :: rest) acc =
      faceAccum vertices rest
        (bumpNormal
          (bumpNormal
            (bumpNormal acc i0
              (faceNormal (vertices.get ⟨i0, h0⟩) (vertices.get ⟨i1, h1⟩)
                (vertices.get ⟨i2, h2⟩)))
            i1
            (faceNormal (vertices.get ⟨i0, h0⟩) (vertices.get ⟨i1, h1⟩)
              (vertices.get ⟨i2, h2⟩)))
          i2
          (faceNormal (vertices.get ⟨i0, h0⟩) (vertices.get ⟨i1, h1⟩)
            (vertices.get ⟨i2, h2⟩))) := by
  simp only [faceAccum, List.getElem?_eq_getElem h0,
    List.getElem?_eq_getElem h1, List.getElem?_eq_getElem h2, List.get_eq_getElem]

theorem faceAccum_length (vertices : List V3q) :
    ∀ (is : List ℕ) (acc acc' : List V3q),
      faceAccum vertices is acc = some acc' → acc'.length = acc.length
  | [], acc, acc', h => by
    simp only [faceAccum, Option.some.injEq] at h
    rw [← h]
  | [i0], acc, acc', h => by
    simp only [faceAccum] at h
    exact Option.noConfusion h
  | [i0, i1], acc, acc', h => by
    simp only [faceAccum] at h
    exact Option.noConfusion h
  | i0 :: i1 :: i2 :: rest, acc, acc', h => by
    simp only [faceAccum] at h
    cases h0 : vertices[i0]? with
    | none => rw [h0] at h; simp at h
    | some v0 =>
      cases h1 : vertices[i1]? with
      | none => rw [h0, h1] at h; simp at h
      | some v1 =>
        cases h2 : vertices[i2]? with
        | none => rw [h0, h1, h2] at h; simp at h
        | some v2 =>
          rw [h0, h1, h2] at h
          simp only [] at h
          have := faceAccum_length vertices rest _ _ h
          simpa [bumpNormal_length] using this

theorem faceAccum_some (vertices : List V3q) :
    ∀ (is : List ℕ) (acc : List V3q),
      (∀ i ∈ is, i < vertices.length) → 3 ∣ is.length →
      ∃ acc', faceAccum vertices is acc = some acc'
  | [], acc, _, _ => ⟨acc, rfl⟩
  | [i0], acc, _, h3 => by
    simp only [List.length_cons, List.length_nil] at h3; omega
  | [i0, i1], acc, _, h3 => by
    simp only [List.length_cons, List.length_nil] at h3; omega
  | i0 :: i1 :: i2 :: rest, acc, hv, h3 => by
    have hi0 : i0 < vertices.length := hv i0 (by simp)
    have hi1 : i1 < vertices.length := hv i1 (by simp)
    have hi2 : i2 < vertices.length := hv i2 (by simp)
    have hrest : ∀ i ∈ rest, i < vertices.length := by
      intro i hi; exact hv i (by simp [hi])
    have h3' : 3 ∣ rest.length := by
      simp only [List.length_cons] at h3; omega
    rw [faceAccum_cons vertices rest acc hi0 hi1 hi2]
    exact faceAccum_some vertices rest _ hrest h3'

/-- C6: Normal Estimator safety.  For every vertex list and every triangle
index list valid for it (all indices in range, stride 3), `compute_normals`
succeeds and returns exactly one normal per input vertex in the same order;
each output is the accumulated face-normal vector divided by its Euclidean
length plus the small positive epsilon `1e-6`, so the denominator is strictly
positive and the division never fails; a vertex with exactly zero accumulated
contribution yields the zero vector. -/
theorem compute_normals_safe (vertices : List V3q) (indices : List ℕ)
    (hv : ∀ i ∈ indices, i < vertices.length) (h3 : 3 ∣ indices.length) :
    ∃ acc ns, faceAccum vertices indices (zeroAcc vertices) = some acc ∧
      compute_normals vertices indices = some ns ∧
      ns.length = vertices.length ∧ acc.length = vertices.length ∧
      (∀ k, k < vertices.length →
        ns.getD k ((0:ℝ),(0:ℝ),(0:ℝ)) =
          normalizeN (acc.getD k ((0:ℚ),(0:ℚ),(0:ℚ)))) ∧
      (∀ a : V3q,
        0 < Real.sqrt ((a.1:ℝ)^2 + (a.2.1:ℝ)^2 + (a.2.2:ℝ)^2) + 1e-6 ∧
        normalizeN a =
          ((a.1:ℝ) / (Real.sqrt ((a.1:ℝ)^2 + (a.2.1:ℝ)^2 + (a.2.2:ℝ)^2) + 1e-6),
           (a.2.1:ℝ) / (Real.sqrt ((a.1:ℝ)^2 + (a.2.1:ℝ)^2 + (a.2.2:ℝ)^2) + 1e-6),
           (a.2.2:ℝ) / (Real.sqrt ((a.1:ℝ)^2 + (a.2.1:ℝ)^2 + (a.2.2:ℝ)^2) + 1e-6))) ∧
      normalizeN ((0:ℚ),(0:ℚ),(0:ℚ)) = ((0:ℝ),(0:ℝ),(0:ℝ)) := by
  obtain ⟨acc, hacc⟩ := faceAccum_some vertices indices (zeroAcc vertices) hv h3
  have hlen : acc.length = vertices.length := by
    have := faceAccum_length vertices indices _ _ hacc
    simpa [zeroAcc] using this
  refine ⟨acc, acc.map normalizeN, hacc, ?_, ?_, hlen, ?_, ?_, ?_⟩
  · simp [compute_normals, hacc]
  · simp [hlen]
  · intro k hk
    have hk' : k < acc.length := by omega
    have hk'' : k < (acc.map normalizeN).length := by simpa using hk'
    rw [List.getD_eq_getElem _ _ hk'', List.getD_eq_getElem _ _ hk']
    simp
  · intro a
    refine ⟨?_, rfl⟩
    have hs := Real.sqrt_nonneg ((a.1:ℝ)^2 + (a.2.1:ℝ)^2 + (a.2.2:ℝ)^2)
    have he : (0:ℝ) < 1e-6 := by norm_num
    linarith
  · simp [normalizeN]

/-- C6 witness: the Normal Estimator safety conjunction at the single
triangle `[(0,0,0), (1,0,0), (0,1,0)]` with index list `[0,1,2]`. -/
theorem compute_normals_safe_witness :
    (∀ i ∈ ([0,1,2] : List ℕ),
       i < ([((0:ℚ),(0:ℚ),(0:ℚ)), ((1:ℚ),(0:ℚ),(0:ℚ)),
             ((0:ℚ),(1:ℚ),(0:ℚ))] : List V3q).length) ∧
    3 ∣ ([0,1,2] : List ℕ).length ∧
    (∃ acc ns,
      faceAccum [((0:ℚ),(0:ℚ),(0:ℚ)), ((1:ℚ),(0:ℚ),(0:ℚ)), ((0:ℚ),(1:ℚ),(0:ℚ))]
        [0,1,2]
        (zeroAcc [((0:ℚ),(0:ℚ),(0:ℚ)), ((1:ℚ),(0:ℚ),(0:ℚ)), ((0:ℚ),(1:ℚ),(0:ℚ))])
        = some acc ∧
      compute_normals
        [((0:ℚ),(0:ℚ),(0:ℚ)), ((1:ℚ),(0:ℚ),(0:ℚ)), ((0:ℚ),(1:ℚ),(0:ℚ))]
        [0,1,2] = some ns ∧
      ns.length =
        ([((0:ℚ),(0:ℚ),(0:ℚ)), ((1:ℚ),(0:ℚ),(0:ℚ)),
          ((0:ℚ),(1:ℚ),(0:ℚ))] : List V3q).length ∧
      acc.length =
        ([((0:ℚ),(0:ℚ),(0:ℚ)), ((1:ℚ),(0:ℚ),(0:ℚ)),
          ((0:ℚ),(1:ℚ),(0:ℚ))] : List V3q).length ∧
      (∀ k, k < ([((0:ℚ),(0:ℚ),(0:ℚ)), ((1:ℚ),(0:ℚ),(0:ℚ)),
                  ((0:ℚ),(1:ℚ),(0:ℚ))] : List V3q).length →
        ns.getD k ((0:ℝ),(0:ℝ),(0:ℝ)) =
          normalizeN (acc.getD k ((0:ℚ),(0:ℚ),(0:ℚ)))) ∧
      (∀ a : V3q,
        0 < Real.sqrt ((a.1:ℝ)^2 + (a.2.1:ℝ)^2 + (a.2.2:ℝ)^2) + 1e-6 ∧
        normalizeN a =
          ((a.1:ℝ) / (Real.sqrt ((a.1:ℝ)^2 + (a.2.1:ℝ)^2 + (a.2.2:ℝ)^2) + 1e-6),
           (a.2.1:ℝ) / (Real.sqrt ((a.1:ℝ)^2 + (a.2.1:ℝ)^2 + (a.2.2:ℝ)^2) + 1e-6),
           (a.2.2:ℝ) / (Real.sqrt ((a.1:ℝ)^2 + (a.2.1:ℝ)^2 + (a.2.2:ℝ)^2) + 1e-6))) ∧
      normalizeN ((0:ℚ),(0:ℚ),(0:ℚ)) = ((0:ℝ),(0:ℝ),(0:ℝ))) :=
  ⟨by decide, by decide,
   compute_normals_safe _ _ (by decide) (by decide)⟩

/-- The Mesh Aggregator `add` closure from `building_generator_v3.py` lines
74-77: `offset = len(store_v); store_v.extend(v);
store_i.extend([idx + offset for idx in i])`.  The group state is the pair
`(store_v, store_i)`.  (`add_mesh` in `building_generator_v2.py` lines 66-70
is the same operation on the module-level lists, with an explicit running
`offset` variable that always equals `len(all_vertices)`.) -/
def add (store : List V3q × List ℕ) (v : List V3q) (i : List ℕ) :
    List V3q × List ℕ :=
  let offset := store.1.length
  (store.1 ++ v, store.2 ++ i.map (fun idx => idx + offset))

/-- A whole sequence of `add` calls applied in order to a group state. -/
def addAll (calls : List (List V3q × List ℕ)) (store : List V3q × List ℕ) :
    List V3q × List ℕ :=
  calls.foldl (fun s c => add s c.1 c.2) store

theorem addAll_invariant (calls : List (List V3q × List ℕ)) :
    ∀ (st : List V3q × List ℕ),
      (∀ idx ∈ st.2, idx < st.1.length) →
      (∀ c ∈ calls, ∀ idx ∈ c.2, idx < c.1.length) →
      (∀ idx ∈ (addAll calls st).2, idx < (addAll calls st).1.length) ∧
      (addAll calls st).1.length
        = st.1.length + (calls.map (fun c => c.1.length)).sum := by
  induction calls with
  | nil => intro st hst _; simpa [addAll] using hst
  | cons c cs ih =>
    intro st hst hcalls
    have hadd : ∀ idx ∈ (add st c.1 c.2).2, idx < (add st c.1 c.2).1.length := by
      intro idx hidx
      simp only [add, List.mem_append, List.mem_map, List.length_append] at hidx ⊢
      rcases hidx with h | ⟨j, hj, rfl⟩
      · exact lt_of_lt_of_le (hst idx h) (Nat.le_add_right _ _)
      · have := hcalls c (by simp) j hj
        omega
    have hlen : (add st c.1 c.2).1.length = st.1.length + c.1.length := by
      simp [add]
    have hrest : ∀ d ∈ cs, ∀ idx ∈ d.2, idx < d.1.length := by
      intro d hd; exact hcalls d (by simp [hd])
    obtain ⟨h1, h2⟩ := ih (add st c.1 c.2) hadd hrest
    refine ⟨?_, ?_⟩
    · simpa [addAll] using h1
    · have : addAll (c :: cs) st = addAll cs (add st c.1 c.2) := by
        simp [addAll]
      rw [this, h2, hlen]
      simp [Nat.add_assoc]

/-- C1: Mesh Aggregator invariant.  For every sequence of `add` calls, in any
order, in which each added index list is locally valid (every index below the
length of the added vertex list), the final group state satisfies: every
stored index is strictly below the group's vertex count, and the vertex count
equals the sum of all added vertex counts. -/
theorem mesh_aggregator_invariant (calls : List (List V3q × List ℕ))
    (h : ∀ c ∈ calls, ∀ idx ∈ c.2, idx < c.1.length) :
    (∀ idx ∈ (addAll calls ([], [])).2,
       idx < (addAll calls ([], [])).1.length) ∧
    (addAll calls ([], [])).1.length
      = (calls.map (fun c => c.1.length)).sum := by
  have := addAll_invariant calls ([], []) (by simp) h
  simpa using this

/-- C1 witness: the aggregator invariant holds after adding two boxes (the
second deliberately listed before the first floor's, exercising order
independence). -/
theorem mesh_aggregator_invariant_witness :
    (∀ c ∈ [create_box 1 2 3 0 5 0, create_box 2 2 2 0 0 0],
       ∀ idx ∈ c.2, idx < c.1.length) ∧
    ((∀ idx ∈ (addAll [create_box 1 2 3 0 5 0, create_box 2 2 2 0 0 0]
                 ([], [])).2,
        idx < (addAll [create_box 1 2 3 0 5 0, create_box 2 2 2 0 0 0]
                 ([], [])).1.length) ∧
     (addAll [create_box 1 2 3 0 5 0, create_box 2 2 2 0 0 0]
        ([], [])).1.length
       = ([create_box 1 2 3 0 5 0, create_box 2 2 2 0 0 0].map
            (fun c => c.1.length)).sum) :=
  ⟨by decide, mesh_aggregator_invariant _ (by decide)⟩

/-- One byte of the packed binary buffer.  `struct.pack('<3f', ...)` emits 4
little-endian bytes per 32-bit float and `struct.pack('<I', ...)` 4 bytes per
unsigned 32-bit integer; the IEEE-754 bit pattern itself is abstracted, so a
byte is tagged with the value it serializes and its position `k` within that
value's 4-byte encoding.  All byte-count and layout facts are preserved. -/
inductive PackedByte
  | f32 (val : ℝ) (k : Fin 4)
  | u32 (val : ℕ) (k : Fin 4)

/-- The 4 bytes of one little-endian 32-bit float. -/
def packF32 (x : ℝ) : List PackedByte :=
  [.f32 x 0, .f32 x 1, .f32 x 2, .f32 x 3]

/-- `struct.pack('<3f', *v)`: 12 bytes for one vertex or normal. -/
def pack3f (v : V3r) : List PackedByte :=
  packF32 v.1 ++ packF32 v.2.1 ++ packF32 v.2.2

/-- `struct.pack('<I', i)`: 4 bytes for one 32-bit unsigned index. -/
def packU32 (i : ℕ) : List PackedByte :=
  [.u32 i 0, .u32 i 1, .u32 i 2, .u32 i 3]

/-- Rational vertex data is serialized through the same float32 format. -/
def q3r (v : V3q) : V3r := ((v.1:ℝ), (v.2.1:ℝ), (v.2.2:ℝ))

/-- `b''.join([struct.pack('<3f',*v) for v in verts])`. -/
def vBytes (verts : List V3q) : List PackedByte :=
  (verts.map (fun v => pack3f (q3r v))).flatten

/-- `b''.join([struct.pack('<3f',*n) for n in normals])`. -/
def nBytes (normals : List V3r) : List PackedByte :=
  (normals.map pack3f).flatten

/-- `b''.join([struct.pack('<I',i) for i in inds])`. -/
def iBytes (inds : List ℕ) : List PackedByte :=
  (inds.map packU32).flatten

/-- The element type string of an accessor: `"VEC3"` or `"SCALAR"`. -/
inductive AccType
  | vec3
  | scalar
deriving DecidableEq

/-- A glTF buffer-view record: `{"buffer": b, "byteOffset": o,
"byteLength": l}` (the optional `target` usage hint of v1/v2 is omitted in
v3's records and not needed by any claim). -/
structure BufferView where
  buffer : ℕ
  byteOffset : ℕ
  byteLength : ℕ
deriving DecidableEq

/-- A glTF accessor record.  `min`/`max` are `none` when the JSON dict has no
such keys (v2/v3); v1's position accessor fills them. -/
structure Accessor where
  bufferView : ℕ
  componentType : ℕ
  count : ℕ
  type : AccType
  min : Option V3q := none
  max : Option V3q := none

/-- One glTF mesh primitive: attribute accessor indices plus index accessor. -/
structure Primitive where
  position : ℕ
  normal : Option ℕ := none
  indices : ℕ
  material : Option ℕ := none

/-- A glTF mesh record. -/
structure MeshRec where
  primitives : List Primitive

/-- A glTF node record; `extras` carries v3's `{"semantic": s, "lod": l}`. -/
structure NodeRec where
  mesh : ℕ
  name : Option String := none
  extras : Option (String × ℕ) := none

/-- One named mesh group as returned by v3's `build_structure`: a vertex
list, an index list and a semantic category string. -/
structure MeshData where
  verts : List V3q
  inds : List ℕ
  semantic : String

/-- The mutable module-level emitter state of `building_generator_v3.py`
lines 139-144: `all_buffer`, `bufferViews`, `accessors`, `meshes`, `nodes`. -/
structure PackState where
  all_buffer : List PackedByte
  bufferViews : List BufferView
  accessors : List Accessor
  meshes : List MeshRec
  nodes : List NodeRec

/-- The empty emitter state (v3 lines 139-144). -/
def initState : PackState := ⟨[], [], [], [], []⟩

/-- `append_mesh` from `building_generator_v3.py` lines 146-175: compute
normals, serialize positions, normals and indices onto the shared buffer,
record three buffer views, three accessors, one mesh and one tagged node.
`none` models the Python failures: `compute_normals` raising on an invalid
index list, and `struct.pack('<I', i)` raising when an index exceeds the
unsigned 32-bit range. -/
noncomputable def append_mesh (name : String) (data : MeshData)
    (lod_level : ℕ) (st : PackState) : Option PackState := do
  let normals ← compute_normals data.verts data.inds
  let v_bytes := vBytes data.verts
  let n_bytes := nBytes normals
  let i_bytes ← if data.inds.all (fun i => i < 2^32)
    then some (iBytes data.inds) else none
  let offset_v := st.all_buffer.length
  let buf_v := st.all_buffer ++ v_bytes
  let offset_n := buf_v.length
  let buf_n := buf_v ++ n_bytes
  let offset_i := buf_n.length
  let buf_i := buf_n ++ i_bytes
  let bv_v := st.bufferViews.length
  let bv_n := bv_v + 1
  let bv_i := bv_v + 2
  let bufferViews := st.bufferViews ++
    [⟨0, offset_v, v_bytes.length⟩,
     ⟨0, offset_n, n_bytes.length⟩,
     ⟨0, offset_i, i_bytes.length⟩]
  let acc_v := st.accessors.length
  let acc_n := acc_v + 1
  let acc_i := acc_v + 2
  let accessors := st.accessors ++
    [{ bufferView := bv_v, componentType := 5126,
       count := data.verts.length, type := .vec3 },
     { bufferView := bv_n, componentType := 5126,
       count := normals.length, type := .vec3 },
     { bufferView := bv_i, componentType := 5125,
       count := data.inds.length, type := .scalar }]
  let meshes := st.meshes ++
    [⟨[{ position := acc_v, normal := some acc_n, indices := acc_i }]⟩]
  let nodes := st.nodes ++
    [{ mesh := meshes.length - 1,
       name := some (name ++ "_LOD" ++ toString lod_level),
       extras := some (data.semantic, lod_level) }]
  pure ⟨buf_i, bufferViews, accessors, meshes, nodes⟩

/-- The emission loops of v3 lines 177-181: `append_mesh` over an ordered
list of named groups at one LOD level. -/
noncomputable def packAll :
    List (String × MeshData) → ℕ → PackState → Option PackState
  | [], _, st => some st
  | (nm, d) :: rest, lod, st =>
    (append_mesh nm d lod st).bind (packAll rest lod)

theorem flatten_const_length {α : Type} (f : α → List PackedByte) (c : ℕ)
    (hf : ∀ a, (f a).length = c) (l : List α) :
    ((l.map f).flatten).length = c * l.length := by
  induction l with
  | nil => simp
  | cons x xs ih => simp [hf, ih, Nat.mul_succ, Nat.add_comm]

theorem vBytes_length (verts : List V3q) :
    (vBytes verts).length = 12 * verts.length :=
  flatten_const_length (fun v => pack3f (q3r v)) 12 (fun _ => rfl) verts

theorem nBytes_length (normals : List V3r) :
    (nBytes normals).length = 12 * normals.length :=
  flatten_const_length pack3f 12 (fun _ => rfl) normals

theorem iBytes_length (inds : List ℕ) :
    (iBytes inds).length = 4 * inds.length :=
  flatten_const_length packU32 4 (fun _ => rfl) inds

/-- A mesh group whose index list is valid for its vertex list: triangle
stride 3, all indices in range, all indices representable as u32. -/
def ValidGroup (d : MeshData) : Prop :=
  (∀ i ∈ d.inds, i < d.verts.length) ∧ 3 ∣ d.inds.length ∧
  (∀ i ∈ d.inds, i < 2^32)

instance (d : MeshData) : Decidable (ValidGroup d) := by
  unfold ValidGroup; infer_instance

theorem compute_normals_some (vertices : List V3q) (indices : List ℕ)
    (hv : ∀ i ∈ indices, i < vertices.length) (h3 : 3 ∣ indices.length) :
    ∃ ns, compute_normals vertices indices = some ns ∧
      ns.length = vertices.length := by
  obtain ⟨acc, hacc⟩ := faceAccum_some vertices indices (zeroAcc vertices) hv h3
  have hlen : acc.length = vertices.length := by
    have := faceAccum_length vertices indices _ _ hacc
    simpa [zeroAcc] using this
  exact ⟨acc.map normalizeN, by simp [compute_normals, hacc], by simp [hlen]⟩

/-- The exact successor state of one `append_mesh` call, given that normal
computation succeeds and all indices fit in u32. -/
theorem append_mesh_eq (name : String) (d : MeshData) (lod : ℕ)
    (st : PackState) (ns : List V3r)
    (hns : compute_normals d.verts d.inds = some ns)
    (h32 : d.inds.all (fun i => i < 2^32) = true) :
    append_mesh name d lod st = some
      { all_buffer := st.all_buffer ++ (vBytes d.verts ++ nBytes ns ++ iBytes d.inds),
        bufferViews := st.bufferViews ++
          [⟨0, st.all_buffer.length, (vBytes d.verts).length⟩,
           ⟨0, st.all_buffer.length + (vBytes d.verts).length, (nBytes ns).length⟩,
           ⟨0, st.all_buffer.length + (vBytes d.verts).length + (nBytes ns).length,
            (iBytes d.inds).length⟩],
        accessors := st.accessors ++
          [{ bufferView := st.bufferViews.length, componentType := 5126,
             count := d.verts.length, type := .vec3 },
           { bufferView := st.bufferViews.length + 1, componentType := 5126,
             count := ns.length, type := .vec3 },
           { bufferView := st.bufferViews.length + 2, componentType := 5125,
             count := d.inds.length, type := .scalar }],
        meshes := st.meshes ++
          [⟨[{ position := st.accessors.length,
               normal := some (st.accessors.length + 1),
               indices := st.accessors.length + 2 }]⟩],
        nodes := st.nodes ++
          [{ mesh := st.meshes.length,
             name := some (name ++ "_LOD" ++ toString lod),
             extras := some (d.semantic, lod) }] } := by
  simp only [append_mesh, hns, h32, if_true, Option.bind_eq_bind,
    Option.some_bind, Option.some.injEq]
  simp [List.length_append, List.append_assoc, Nat.add_assoc]

/-- The buffer views starting at byte offset `off` tile a byte range with no
gap: each view starts exactly where the previous one ended. -/
def contigFrom : ℕ → List BufferView → Prop
  | _, [] => True
  | off, v :: vs => v.byteOffset = off ∧ contigFrom (off + v.byteLength) vs

/-- Sum of the recorded byte lengths of a list of buffer views. -/
def viewsTotal (vs : List BufferView) : ℕ :=
  (vs.map (fun v => v.byteLength)).sum

/-- Byte size of one accessor element: 12 bytes per `"VEC3"` float triple,
4 bytes per u32 `"SCALAR"`. -/
def accSize : AccType → ℕ
  | .vec3 => 12
  | .scalar => 4

/-- Every accessor references an existing buffer view, and its declared
element count times its element byte size equals that view's byte length. -/
def AccOk (st : PackState) : Prop :=
  ∀ a ∈ st.accessors, a.bufferView < st.bufferViews.length ∧
    a.count * accSize a.type =
      (st.bufferViews.getD a.bufferView ⟨0, 0, 0⟩).byteLength

/-- Emitter-state invariant: views tile the buffer from offset 0 with no
gaps, their lengths sum to the buffer length, and accessors are sized. -/
def PackInv (st : PackState) : Prop :=
  contigFrom 0 st.bufferViews ∧
  viewsTotal st.bufferViews = st.all_buffer.length ∧
  AccOk st

theorem viewsTotal_nil : viewsTotal [] = 0 := rfl

theorem viewsTotal_append (xs ys : List BufferView) :
    viewsTotal (xs ++ ys) = viewsTotal xs + viewsTotal ys := by
  simp [viewsTotal]

theorem contigFrom_cons (off : ℕ) (v : BufferView) (vs : List BufferView) :
    contigFrom off (v :: vs) ↔
      v.byteOffset = off ∧ contigFrom (off + v.byteLength) vs := Iff.rfl

theorem contigFrom_append (off : ℕ) (xs ys : List BufferView) :
    contigFrom off (xs ++ ys) ↔
      contigFrom off xs ∧ contigFrom (off + viewsTotal xs) ys := by
  induction xs generalizing off with
  | nil => simp [contigFrom, viewsTotal]
  | cons x xs ih =>
    have hv : viewsTotal (x :: xs) = x.byteLength + viewsTotal xs := by
      simp [viewsTotal]
    rw [List.cons_append, contigFrom_cons, contigFrom_cons, ih, hv,
      ← Nat.add_assoc, and_assoc]

theorem contigFrom_le (vs : List BufferView) :
    ∀ (off : ℕ), contigFrom off vs →
      ∀ v ∈ vs, off ≤ v.byteOffset ∧
        v.byteOffset + v.byteLength ≤ off + viewsTotal vs := by
  induction vs with
  | nil => intro off _ v hv; simp at hv
  | cons w ws ih =>
    intro off h v hv
    obtain ⟨hw, hrest⟩ := h
    rcases List.mem_cons.mp hv with rfl | hv'
    · constructor
      · omega
      · have : viewsTotal (v :: ws) = v.byteLength + viewsTotal ws := by
          simp [viewsTotal]
        omega
    · obtain ⟨h1, h2⟩ := ih (off + w.byteLength) hrest v hv'
      have : viewsTotal (w :: ws) = w.byteLength + viewsTotal ws := by
        simp [viewsTotal]
      omega

/-- Contiguous views are pairwise non-overlapping: each earlier view ends at
or before the start of each later one. -/
theorem contigFrom_pairwise (vs : List BufferView) :
    ∀ (off : ℕ), contigFrom off vs →
      vs.Pairwise (fun a b => a.byteOffset + a.byteLength ≤ b.byteOffset) := by
  induction vs with
  | nil => intro off _; exact List.Pairwise.nil
  | cons w ws ih =>
    intro off h
    obtain ⟨hw, hrest⟩ := h
    refine List.Pairwise.cons ?_ (ih _ hrest)
    intro b hb
    have := (contigFrom_le ws _ hrest b hb).1
    omega

theorem getD_append_left {α : Type} (xs ys : List α) (i : ℕ) (d : α)
    (h : i < xs.length) : (xs ++ ys).getD i d = xs.getD i d := by
  simp [List.getD_eq_getElem?_getD, List.getElem?_append_left h]

theorem getD_append_right_add {α : Type} (xs ys : List α) (k : ℕ) (d : α) :
    (xs ++ ys).getD (xs.length + k) d = ys.getD k d := by
  simp [List.getD_eq_getElem?_getD,
    List.getElem?_append_right (Nat.le_add_right xs.length k)]

/-- The bytes one mesh group contributes to the shared buffer, in layout
order: positions, then normals, then indices. -/
noncomputable def groupBytes (g : String × MeshData) :
    Option (List PackedByte) := do
  let normals ← compute_normals g.2.verts g.2.inds
  let i_bytes ← if g.2.inds.all (fun i => i < 2^32)
    then some (iBytes g.2.inds) else none
  pure (vBytes g.2.verts ++ nBytes normals ++ i_bytes)

/-- Per-group byte sections for a whole ordered group list. -/
noncomputable def groupBytesAll :
    List (String × MeshData) → Option (List (List PackedByte))
  | [] => some []
  | g :: gs =>
    (groupBytes g).bind (fun b => (groupBytesAll gs).map (fun bs => b :: bs))

theorem groupBytesAll_length :
    ∀ (gs : List (String × MeshData)) (secs : List (List PackedByte)),
      groupBytesAll gs = some secs → secs.length = gs.length
  | [], secs, h => by
    simp only [groupBytesAll, Option.some.injEq] at h
    rw [← h]; rfl
  | g :: gs, secs, h => by
    simp only [groupBytesAll] at h
    cases hb : groupBytes g with
    | none => rw [hb] at h; simp at h
    | some b =>
      rw [hb] at h
      cases hbs : groupBytesAll gs with
      | none => rw [hbs] at h; simp at h
      | some bs =>
        rw [hbs] at h
        simp at h
        rw [← h]
        simp [groupBytesAll_length gs bs hbs]

/-- Master induction for the Binary Packer: starting from any state
satisfying the emitter invariant, packing a list of valid groups succeeds,
appends exactly the per-group sections (positions, normals, indices, in
order, per group) to the buffer, adds three buffer views per group, and
preserves the invariant. -/
theorem packAll_spec :
    ∀ (gs : List (String × MeshData)) (lod : ℕ) (st : PackState),
      (∀ g ∈ gs, ValidGroup g.2) → PackInv st →
      ∃ st' secs, packAll gs lod st = some st' ∧
        groupBytesAll gs = some secs ∧
        st'.all_buffer = st.all_buffer ++ secs.flatten ∧
        st'.bufferViews.length = st.bufferViews.length + 3 * gs.length ∧
        PackInv st'
  | [], lod, st, _, hinv =>
    ⟨st, [], rfl, rfl, by simp, by simp, hinv⟩
  | (nm, d) :: gs, lod, st, hg, hinv => by
    obtain ⟨hvld, h3, h32⟩ := hg (nm, d) (by simp)
    obtain ⟨ns, hns, hnslen⟩ := compute_normals_some d.verts d.inds hvld h3
    have h32b : d.inds.all (fun i => i < 2^32) = true :=
      List.all_eq_true.mpr (fun i hi => decide_eq_true (h32 i hi))
    have hstep := append_mesh_eq nm d lod st ns hns h32b
    set st1 : PackState :=
      { all_buffer := st.all_buffer ++ (vBytes d.verts ++ nBytes ns ++ iBytes d.inds),
        bufferViews := st.bufferViews ++
          [⟨0, st.all_buffer.length, (vBytes d.verts).length⟩,
           ⟨0, st.all_buffer.length + (vBytes d.verts).length, (nBytes ns).length⟩,
           ⟨0, st.all_buffer.length + (vBytes d.verts).length + (nBytes ns).length,
            (iBytes d.inds).length⟩],
        accessors := st.accessors ++
          [{ bufferView := st.bufferViews.length, componentType := 5126,
             count := d.verts.length, type := .vec3 },
           { bufferView := st.bufferViews.length + 1, componentType := 5126,
             count := ns.length, type := .vec3 },
           { bufferView := st.bufferViews.length + 2, componentType := 5125,
             count := d.inds.length, type := .scalar }],
        meshes := st.meshes ++
          [⟨[{ position := st.accessors.length,
               normal := some (st.accessors.length + 1),
               indices := st.accessors.length + 2 }]⟩],
        nodes := st.nodes ++
          [{ mesh := st.meshes.length,
             name := some (nm ++ "_LOD" ++ toString lod),
             extras := some (d.semantic, lod) }] } with hst1
    obtain ⟨hc, ht, ha⟩ := hinv
    have htot3 : viewsTotal st1.bufferViews =
        viewsTotal st.bufferViews + ((vBytes d.verts).length +
          ((nBytes ns).length + (iBytes d.inds).length)) := by
      simp [hst1, viewsTotal]
    have hinv1 : PackInv st1 := by
      refine ⟨?_, ?_, ?_⟩
      · rw [hst1]
        rw [contigFrom_append]
        refine ⟨hc, ?_⟩
        simp only [contigFrom_cons, contigFrom, and_true, ht]
        omega
      · rw [htot3, ht]
        simp [hst1]
      · intro a hmem
        rw [hst1] at hmem
        simp only [List.mem_append, List.mem_cons, List.not_mem_nil,
          or_false] at hmem
        have hvlen : st1.bufferViews.length = st.bufferViews.length + 3 := by
          simp [hst1]
        rcases hmem with hold | rfl | rfl | rfl
        · obtain ⟨hlt, hsz⟩ := ha a hold
          refine ⟨by omega, ?_⟩
          rw [hst1] at *
          rw [getD_append_left _ _ _ _ hlt] at *
          exact hsz
        · refine ⟨?_, ?_⟩
          · show st.bufferViews.length < st1.bufferViews.length
            omega
          · have h0 : st.bufferViews.length = st.bufferViews.length + 0 := rfl
            rw [hst1]
            simp only
            rw [h0, getD_append_right_add]
            simp [accSize, vBytes_length, Nat.mul_comm]
        · refine ⟨?_, ?_⟩
          · show st.bufferViews.length + 1 < st1.bufferViews.length
            omega
          · rw [hst1]
            simp only
            rw [getD_append_right_add]
            simp [accSize, nBytes_length, Nat.mul_comm]
        · refine ⟨?_, ?_⟩
          · show st.bufferViews.length + 2 < st1.bufferViews.length
            omega
          · rw [hst1]
            simp only
            rw [getD_append_right_add]
            simp [accSize, iBytes_length, Nat.mul_comm]
    have hgs : ∀ g ∈ gs, ValidGroup g.2 := fun g hgmem => hg g (by simp [hgmem])
    obtain ⟨st', secs, hpack, hsecs, hbuf, hviews, hinv'⟩ :=
      packAll_spec gs lod st1 hgs hinv1
    refine ⟨st', (vBytes d.verts ++ nBytes ns ++ iBytes d.inds) :: secs,
      ?_, ?_, ?_, ?_, hinv'⟩
    · simp only [packAll, hstep, Option.some_bind]
      exact hpack
    · simp only [groupBytesAll, groupBytes, Option.bind_eq_bind, hns,
        Option.some_bind, h32b, if_true, hsecs]
      rfl
    · rw [hbuf, hst1]
      simp [List.append_assoc]
    · rw [hviews]
      have hvlen1 : st1.bufferViews.length = st.bufferViews.length + 3 := by
        simp [hst1]
      rw [hvlen1]
      simp only [List.length_cons]
      omega

/-- C2: Binary Packer byte-exactness.  For every ordered list of valid mesh
groups, packing from the empty emitter state succeeds and: the packed buffer
is exactly the concatenation, mesh by mesh in emission order, of positions
then normals then indices (`groupBytes`) with no padding or gaps; three
buffer views are recorded per mesh, tiling the buffer contiguously from
offset 0; the sum of all recorded buffer-view byte lengths equals the total
buffer byte length; no two buffer views overlap; and each accessor's declared
element count times its element byte size (12 per VEC3 float triple, 4 per
u32 scalar) equals its buffer view's byte length. -/
theorem binary_packer_byte_exact (gs : List (String × MeshData)) (lod : ℕ)
    (hg : ∀ g ∈ gs, ValidGroup g.2) :
    ∃ st secs, packAll gs lod initState = some st ∧
      groupBytesAll gs = some secs ∧
      secs.length = gs.length ∧
      st.all_buffer = secs.flatten ∧
      st.bufferViews.length = 3 * gs.length ∧
      contigFrom 0 st.bufferViews ∧
      viewsTotal st.bufferViews = st.all_buffer.length ∧
      st.bufferViews.Pairwise
        (fun a b => a.byteOffset + a.byteLength ≤ b.byteOffset) ∧
      AccOk st := by
  have hinv0 : PackInv initState := by
    refine ⟨trivial, rfl, ?_⟩
    intro a ha
    simp [initState] at ha
  obtain ⟨st, secs, h1, h2, h3, h4, hinv⟩ :=
    packAll_spec gs lod initState hg hinv0
  obtain ⟨hc, ht, hacc⟩ := hinv
  exact ⟨st, secs, h1, h2, groupBytesAll_length gs secs h2,
    by simpa [initState] using h3, by simpa [initState] using h4,
    hc, ht, contigFrom_pairwise _ 0 hc, hacc⟩

/-- The concrete single-box group list used as the packer witness input. -/
def boxGroupList : List (String × MeshData) :=
  [(("Box" : String),
    MeshData.mk (create_box 1 1 1 0 0 0).1 (create_box 1 1 1 0 0 0).2
      "structure")]

/-- C2 witness: the byte-exactness conjunction at the concrete one-group
list `boxGroupList`. -/
theorem binary_packer_byte_exact_witness :
    (∀ g ∈ boxGroupList, ValidGroup g.2) ∧
    (∃ st secs, packAll boxGroupList 0 initState = some st ∧
      groupBytesAll boxGroupList = some secs ∧
      secs.length = boxGroupList.length ∧
      st.all_buffer = secs.flatten ∧
      st.bufferViews.length = 3 * boxGroupList.length ∧
      contigFrom 0 st.bufferViews ∧
      viewsTotal st.bufferViews = st.all_buffer.length ∧
      st.bufferViews.Pairwise
        (fun a b => a.byteOffset + a.byteLength ≤ b.byteOffset) ∧
      AccOk st) :=
  ⟨by decide, binary_packer_byte_exact boxGroupList 0 (by decide)⟩

/-- Generation error kinds.  `zeroDivision` models Python's
`ZeroDivisionError`; `invalidIndex` the normal-computation / index-packing
failures; `invalidGridResolution` is the validation error the spec (§7)
names for grid resolutions below 2 — no script ever raises it. -/
inductive GenErr
  | zeroDivision
  | invalidIndex
  | invalidGridResolution
deriving DecidableEq

/-- The module-level parameters of `building_generator_v3.py` lines 13-24,
passed explicitly. -/
structure Params where
  floors : ℕ
  floor_height : ℚ
  building_width : ℚ
  grid_L0 : ℕ
  grid_L1 : ℕ
  column_size : ℚ
  beam_height : ℚ
  beam_width : ℚ
  slab_thickness : ℚ
  core_size : ℚ
  wall_thickness : ℚ

/-- The parameter values hard-coded in `building_generator_v3.py`. -/
def defaultParams : Params :=
  { floors := 5, floor_height := 3.5, building_width := 20,
    grid_L0 := 5, grid_L1 := 3, column_size := 0.4, beam_height := 0.5,
    beam_width := 0.4, slab_thickness := 0.3, core_size := 4,
    wall_thickness := 0.3 }

/-- `build_structure` from `building_generator_v3.py` lines 65-132, with the
module parameters as an argument.  Python raises `ZeroDivisionError` at line
66 (`spacing = building_width/(grid_size-1)`) when `grid_size == 1`, before
any box is emitted; the guard below models that (for any other grid size the
rational division is exact).  Each named store equals the fold of the v3
`add` closure over exactly the `create_box` calls the loops issue into that
store, in program order; the result list is in the dict's insertion order
(Python dicts preserve insertion order). -/
def build_structure_E (p : Params) (grid_size : ℕ) :
    Except GenErr (List (String × MeshData)) :=
  if (grid_size : ℚ) - 1 = 0 then .error .zeroDivision
  else
    let spacing := p.building_width / ((grid_size : ℚ) - 1)
    let structFloors := (List.range p.floors).filter (fun f => f < p.floors - 1)
    let slabs := addAll ((List.range p.floors).map (fun f =>
      create_box p.building_width p.slab_thickness p.building_width
        0 ((f : ℚ) * p.floor_height) 0)) ([], [])
    let spatial := addAll ((List.range p.floors).map (fun f =>
      create_box (p.building_width * 0.9) (p.floor_height * 0.8)
        (p.building_width * 0.9)
        0 ((f : ℚ) * p.floor_height + p.floor_height/2) 0)) ([], [])
    let cols := addAll (structFloors.flatMap (fun f =>
      (List.range grid_size).flatMap (fun gx =>
        (List.range grid_size).map (fun gz =>
          create_box p.column_size p.floor_height p.column_size
            (-p.building_width/2 + (gx : ℚ) * spacing)
            ((f : ℚ) * p.floor_height + p.floor_height/2)
            (-p.building_width/2 + (gz : ℚ) * spacing))))) ([], [])
    let beams := addAll (structFloors.flatMap (fun f =>
      (List.range grid_size).flatMap (fun gz =>
        (List.range (grid_size - 1)).map (fun gx =>
          let xs := -p.building_width/2 + (gx : ℚ) * spacing
          let xe := xs + spacing
          let mx := (xs + xe)/2
          create_box spacing p.beam_height p.beam_width
            mx
            ((f : ℚ) * p.floor_height + p.floor_height - p.beam_height/2)
            (-p.building_width/2 + (gz : ℚ) * spacing))))) ([], [])
    let core := addAll ((List.range (p.floors - 1)).map (fun f =>
      create_box p.core_size p.floor_height p.core_size
        0 ((f : ℚ) * p.floor_height + p.floor_height/2) 0)) ([], [])
    let walls := addAll ((List.range (p.floors - 1)).map (fun f =>
      create_box p.wall_thickness p.floor_height p.building_width
        (-p.building_width/2)
        ((f : ℚ) * p.floor_height + p.floor_height/2) 0)) ([], [])
    .ok [("Slabs", ⟨slabs.1, slabs.2, "structure"⟩),
         ("Columns", ⟨cols.1, cols.2, "structure"⟩),
         ("Beams", ⟨beams.1, beams.2, "structure"⟩),
         ("Core", ⟨core.1, core.2, "structure"⟩),
         ("Walls", ⟨walls.1, walls.2, "structure"⟩),
         ("SpatialZones", ⟨spatial.1, spatial.2, "spatial"⟩)]

/-- C5 amended: for every parameter record, generation at grid resolution 1
fails before any geometry is emitted — but with Python's `ZeroDivisionError`
from the spacing computation (`building_generator_v3.py` line 66; likewise
module-level `column_spacing` in `building_generator.py` line 45), not with
a named `InvalidGridResolution` validation error. -/
theorem grid_one_zero_division (p : Params) :
    build_structure_E p 1 = .error .zeroDivision := by
  rw [build_structure_E, if_pos]
  norm_num

/-- C5 counterexample: at the shipped parameters with N=1, generation fails
with the division-by-zero error, which is not the `InvalidGridResolution`
error the claim names. -/
theorem grid_one_not_invalid_grid_resolution :
    build_structure_E defaultParams 1 = .error .zeroDivision ∧
    (Except.error GenErr.zeroDivision :
       Except GenErr (List (String × MeshData))) ≠
      Except.error GenErr.invalidGridResolution := by
  constructor
  · rw [build_structure_E, if_pos]
    norm_num
  · intro h
    exact absurd (Except.error.inj h) (by decide)

/-- Lift an `Option` into `Except` with the given error. -/
def exceptOfOption {α : Type} (o : Option α) (e : GenErr) : Except GenErr α :=
  match o with
  | some a => .ok a
  | none => .error e

/-- The glTF document assembled by `building_generator_v3.py` lines 185-194.
The `buffers[0]` entry is represented by the packed byte list plus its
declared byte length; base64 encoding of the identical bytes and file
writing are external collaborators outside the embedding. -/
structure Gltf where
  asset_version : String
  buffer : List PackedByte
  buffer_byteLength : ℕ
  bufferViews : List BufferView
  accessors : List Accessor
  meshes : List MeshRec
  nodes : List NodeRec
  scene_nodes : List ℕ
  scene : ℕ

/-- The whole v3 pipeline (`building_generator_v3.py` lines 135-194): build
the LOD0 and LOD1 structures, run `append_mesh` over every group of each in
order, and assemble the document. -/
noncomputable def generate (p : Params) : Except GenErr Gltf := do
  let lod0 ← build_structure_E p p.grid_L0
  let lod1 ← build_structure_E p p.grid_L1
  let st0 ← exceptOfOption (packAll lod0 0 initState) .invalidIndex
  let st ← exceptOfOption (packAll lod1 1 st0) .invalidIndex
  pure { asset_version := "2.0",
         buffer := st.all_buffer,
         buffer_byteLength := st.all_buffer.length,
         bufferViews := st.bufferViews,
         accessors := st.accessors,
         meshes := st.meshes,
         nodes := st.nodes,
         scene_nodes := List.range st.nodes.length,
         scene := 0 }

/-- C9: Determinism.  The embedded generation pipeline is a pure function of
the parameter record — the source draws no randomness, time, or environment
input — so two runs on equal configurations produce equal documents and
equal buffer bytes. -/
theorem generation_deterministic (p q : Params) (h : p = q) :
    generate p = generate q := by rw [h]

/-- C9 witness: two runs at the shipped v3 parameters agree. -/
theorem generation_deterministic_witness :
    defaultParams = defaultParams ∧
    generate defaultParams = generate defaultParams :=
  ⟨rfl, generation_deterministic defaultParams defaultParams rfl⟩

/-- C7 counterexample: `append_mesh` does not skip a zero-vertex group — for
the empty group "Empty" it still emits three buffer views, three accessors,
one mesh and one node (the claim says none of these may appear). -/
theorem empty_group_not_skipped :
    (append_mesh "Empty" (MeshData.mk [] [] "structure") 0 initState).map
      (fun st => (st.bufferViews.length, st.accessors.length,
                  st.meshes.length, st.nodes.length)) = some (3, 3, 1, 1) := by
  rw [append_mesh_eq "Empty" (MeshData.mk [] [] "structure") 0 initState []
    rfl rfl]
  rfl

/-- C7 amended: the v3 packer emits every group unconditionally.  From any
emitter state, appending a zero-vertex group succeeds and contributes exactly
three buffer views — all with byte length 0 — three accessors with element
count 0, one mesh, and one node, instead of being skipped. -/
theorem append_mesh_empty_group_emits (name sem : String) (lod : ℕ)
    (st : PackState) :
    ∃ st', append_mesh name (MeshData.mk [] [] sem) lod st = some st' ∧
      st'.bufferViews.length = st.bufferViews.length + 3 ∧
      st'.accessors.length = st.accessors.length + 3 ∧
      st'.meshes.length = st.meshes.length + 1 ∧
      st'.nodes.length = st.nodes.length + 1 ∧
      (∀ v ∈ st'.bufferViews.drop st.bufferViews.length, v.byteLength = 0) ∧
      (∀ a ∈ st'.accessors.drop st.accessors.length, a.count = 0) := by
  refine ⟨_, append_mesh_eq name (MeshData.mk [] [] sem) lod st [] rfl rfl,
    ?_, ?_, ?_, ?_, ?_, ?_⟩
  · simp
  · simp
  · simp
  · simp
  · intro v hv
    rw [List.drop_left] at hv
    simp only [List.mem_cons, List.not_mem_nil, or_false] at hv
    rcases hv with rfl | rfl | rfl <;> rfl
  · intro a ha
    rw [List.drop_left] at ha
    simp only [List.mem_cons, List.not_mem_nil, or_false] at ha
    rcases ha with rfl | rfl | rfl <;> rfl

/-- C8 counterexample: v3's `append_mesh` (lines 166-168) declares no
min/max bounds on any accessor — for a concrete one-vertex group the
position accessor (and the other two) carries `none` for both bounds, not
the componentwise min/max of the group's vertices. -/
theorem v3_position_accessor_no_bounds :
    (append_mesh "T" (MeshData.mk [((1:ℚ),(2:ℚ),(3:ℚ))] [] "structure") 0
        initState).map
      (fun st => st.accessors.map (fun a => (a.min, a.max)))
    = some [(none, none), (none, none), (none, none)] := by
  rw [append_mesh_eq "T" (MeshData.mk [((1:ℚ),(2:ℚ),(3:ℚ))] [] "structure") 0
    initState [normalizeN ((0:ℚ),(0:ℚ),(0:ℚ))] rfl rfl]
  rfl

/-- Python's `max()` over a nonempty sequence (it raises `ValueError` on an
empty one), as used componentwise by `building_generator.py` line 156. -/
def pymax : List ℚ → Option ℚ
  | [] => none
  | x :: xs => some (xs.foldl max x)

/-- Python's `min()` over a nonempty sequence (`building_generator.py`
line 157). -/
def pymin : List ℚ → Option ℚ
  | [] => none
  | x :: xs => some (xs.foldl min x)

/-- `[max(v[i] for v in all_vertices) for i in range(3)]` (v1 line 156). -/
def v1_pos_max (vs : List V3q) : Option V3q := do
  let a ← pymax (vs.map (fun v => v.1))
  let b ← pymax (vs.map (fun v => v.2.1))
  let c ← pymax (vs.map (fun v => v.2.2))
  pure (a, b, c)

/-- `[min(v[i] for v in all_vertices) for i in range(3)]` (v1 line 157). -/
def v1_pos_min (vs : List V3q) : Option V3q := do
  let a ← pymin (vs.map (fun v => v.1))
  let b ← pymin (vs.map (fun v => v.2.1))
  let c ← pymin (vs.map (fun v => v.2.2))
  pure (a, b, c)

/-- The `accessors` list of `building_generator.py` lines 150-165: a
position accessor carrying min/max bounds, and an index accessor carrying
none. -/
def v1_accessors (all_vertices : List V3q) (all_indices : List ℕ) :
    Option (List Accessor) := do
  let mx ← v1_pos_max all_vertices
  let mn ← v1_pos_min all_vertices
  pure [{ bufferView := 0, componentType := 5126,
          count := all_vertices.length, type := .vec3,
          min := some mn, max := some mx },
        { bufferView := 1, componentType := 5125,
          count := all_indices.length, type := .scalar }]

/-- Placeholder accessor used as `getD` default. -/
def dummyAcc : Accessor :=
  { bufferView := 0, componentType := 0, count := 0, type := .scalar }

theorem foldl_max_le (xs : List ℚ) :
    ∀ (x : ℚ), ∀ y ∈ x :: xs, y ≤ xs.foldl max x := by
  induction xs with
  | nil =>
    intro x y hy
    simp only [List.mem_cons, List.not_mem_nil, or_false] at hy
    simp [hy, List.foldl_nil]
  | cons z zs ih =>
    intro x y hy
    simp only [List.foldl_cons]
    simp only [List.mem_cons] at hy
    rcases hy with rfl | rfl | hy'
    · exact le_trans (le_max_left y z) (ih (max y z) _ (by simp))
    · exact le_trans (le_max_right x y) (ih (max x y) _ (by simp))
    · exact ih (max x z) y (by simp [hy'])

theorem foldl_max_mem (xs : List ℚ) :
    ∀ (x : ℚ), xs.foldl max x ∈ x :: xs := by
  induction xs with
  | nil => intro x; simp
  | cons z zs ih =>
    intro x
    simp only [List.foldl_cons]
    have := ih (max x z)
    rcases List.mem_cons.mp this with h | h
    · rcases max_choice x z with hc | hc
      · exact List.mem_cons.mpr (.inl (h.trans hc))
      · exact List.mem_cons.mpr (.inr (by simp [h.trans hc]))
    · simp [h]

theorem foldl_min_le (xs : List ℚ) :
    ∀ (x : ℚ), ∀ y ∈ x :: xs, xs.foldl min x ≤ y := by
  induction xs with
  | nil =>
    intro x y hy
    simp only [List.mem_cons, List.not_mem_nil, or_false] at hy
    simp [hy, List.foldl_nil]
  | cons z zs ih =>
    intro x y hy
    simp only [List.foldl_cons]
    simp only [List.mem_cons] at hy
    rcases hy with rfl | rfl | hy'
    · exact le_trans (ih (min y z) _ (by simp)) (min_le_left y z)
    · exact le_trans (ih (min x y) _ (by simp)) (min_le_right x y)
    · exact ih (min x z) y (by simp [hy'])

theorem foldl_min_mem (xs : List ℚ) :
    ∀ (x : ℚ), xs.foldl min x ∈ x :: xs := by
  induction xs with
  | nil => intro x; simp
  | cons z zs ih =>
    intro x
    simp only [List.foldl_cons]
    have := ih (min x z)
    rcases List.mem_cons.mp this with h | h
    · rcases min_choice x z with hc | hc
      · exact List.mem_cons.mpr (.inl (h.trans hc))
      · exact List.mem_cons.mpr (.inr (by simp [h.trans hc]))
    · simp [h]

/-- C8 amended: only v1's single-mesh document declares accessor bounds.
For every nonempty merged vertex list, v1's position accessor min/max are
exactly the componentwise minimum and maximum over the vertices — each bound
value bounds every vertex and is attained by some vertex — while its index
accessor carries no bounds.  (v2's and v3's accessors declare no bounds at
all; see the C8 counterexample.) -/
theorem v1_position_accessor_bounds (vs : List V3q) (is : List ℕ)
    (hne : vs ≠ []) :
    ∃ accs mn mx, v1_accessors vs is = some accs ∧
      accs.length = 2 ∧
      (accs.getD 0 dummyAcc).min = some mn ∧
      (accs.getD 0 dummyAcc).max = some mx ∧
      (∀ v ∈ vs, mn.1 ≤ v.1 ∧ mn.2.1 ≤ v.2.1 ∧ mn.2.2 ≤ v.2.2 ∧
                 v.1 ≤ mx.1 ∧ v.2.1 ≤ mx.2.1 ∧ v.2.2 ≤ mx.2.2) ∧
      (mx.1 ∈ vs.map (fun v => v.1) ∧ mx.2.1 ∈ vs.map (fun v => v.2.1) ∧
       mx.2.2 ∈ vs.map (fun v => v.2.2)) ∧
      (mn.1 ∈ vs.map (fun v => v.1) ∧ mn.2.1 ∈ vs.map (fun v => v.2.1) ∧
       mn.2.2 ∈ vs.map (fun v => v.2.2)) ∧
      (accs.getD 1 dummyAcc).min = none ∧
      (accs.getD 1 dummyAcc).max = none := by
  match vs, hne with
  | v :: vs', _ =>
    refine ⟨[{ bufferView := 0, componentType := 5126,
               count := (v :: vs').length, type := .vec3,
               min := some
                 ((vs'.map (fun v => v.1)).foldl min v.1,
                  (vs'.map (fun v => v.2.1)).foldl min v.2.1,
                  (vs'.map (fun v => v.2.2)).foldl min v.2.2),
               max := some
                 ((vs'.map (fun v => v.1)).foldl max v.1,
                  (vs'.map (fun v => v.2.1)).foldl max v.2.1,
                  (vs'.map (fun v => v.2.2)).foldl max v.2.2) },
             { bufferView := 1, componentType := 5125,
               count := is.length, type := .scalar }],
      ((vs'.map (fun v => v.1)).foldl min v.1,
       (vs'.map (fun v => v.2.1)).foldl min v.2.1,
       (vs'.map (fun v => v.2.2)).foldl min v.2.2),
      ((vs'.map (fun v => v.1)).foldl max v.1,
       (vs'.map (fun v => v.2.1)).foldl max v.2.1,
       (vs'.map (fun v => v.2.2)).foldl max v.2.2),
      ?_, by rfl, by rfl, by rfl, ?_, ?_, ?_, by rfl, by rfl⟩
    · rfl
    · intro u hu
      have hx : u.1 ∈ v.1 :: vs'.map (fun v => v.1) := by
        have hm : u.1 ∈ (v :: vs').map (fun v => v.1) :=
          List.mem_map_of_mem _ hu
        simpa using hm
      have hy : u.2.1 ∈ v.2.1 :: vs'.map (fun v => v.2.1) := by
        have hm : u.2.1 ∈ (v :: vs').map (fun v => v.2.1) :=
          List.mem_map_of_mem _ hu
        simpa using hm
      have hz : u.2.2 ∈ v.2.2 :: vs'.map (fun v => v.2.2) := by
        have hm : u.2.2 ∈ (v :: vs').map (fun v => v.2.2) :=
          List.mem_map_of_mem _ hu
        simpa using hm
      exact ⟨foldl_min_le _ _ _ hx, foldl_min_le _ _ _ hy,
        foldl_min_le _ _ _ hz, foldl_max_le _ _ _ hx,
        foldl_max_le _ _ _ hy, foldl_max_le _ _ _ hz⟩
    · refine ⟨?_, ?_, ?_⟩ <;>
        (rw [List.map_cons]; exact foldl_max_mem _ _)
    · refine ⟨?_, ?_, ?_⟩ <;>
        (rw [List.map_cons]; exact foldl_min_mem _ _)

/-- C8 amended witness: the bounds characterization at the concrete
two-vertex list `[(1,2,3), (0,5,1)]`. -/
theorem v1_position_accessor_bounds_witness :
    (([((1:ℚ),(2:ℚ),(3:ℚ)), ((0:ℚ),(5:ℚ),(1:ℚ))] : List V3q) ≠ []) ∧
    (∃ accs mn mx,
      v1_accessors [((1:ℚ),(2:ℚ),(3:ℚ)), ((0:ℚ),(5:ℚ),(1:ℚ))] [0] = some accs ∧
      accs.length = 2 ∧
      (accs.getD 0 dummyAcc).min = some mn ∧
      (accs.getD 0 dummyAcc).max = some mx ∧
      (∀ v ∈ ([((1:ℚ),(2:ℚ),(3:ℚ)), ((0:ℚ),(5:ℚ),(1:ℚ))] : List V3q),
         mn.1 ≤ v.1 ∧ mn.2.1 ≤ v.2.1 ∧ mn.2.2 ≤ v.2.2 ∧
         v.1 ≤ mx.1 ∧ v.2.1 ≤ mx.2.1 ∧ v.2.2 ≤ mx.2.2) ∧
      (mx.1 ∈ ([((1:ℚ),(2:ℚ),(3:ℚ)), ((0:ℚ),(5:ℚ),(1:ℚ))] : List V3q).map
          (fun v => v.1) ∧
       mx.2.1 ∈ ([((1:ℚ),(2:ℚ),(3:ℚ)), ((0:ℚ),(5:ℚ),(1:ℚ))] : List V3q).map
          (fun v => v.2.1) ∧
       mx.2.2 ∈ ([((1:ℚ),(2:ℚ),(3:ℚ)), ((0:ℚ),(5:ℚ),(1:ℚ))] : List V3q).map
          (fun v => v.2.2)) ∧
      (mn.1 ∈ ([((1:ℚ),(2:ℚ),(3:ℚ)), ((0:ℚ),(5:ℚ),(1:ℚ))] : List V3q).map
          (fun v => v.1) ∧
       mn.2.1 ∈ ([((1:ℚ),(2:ℚ),(3:ℚ)), ((0:ℚ),(5:ℚ),(1:ℚ))] : List V3q).map
          (fun v => v.2.1) ∧
       mn.2.2 ∈ ([((1:ℚ),(2:ℚ),(3:ℚ)), ((0:ℚ),(5:ℚ),(1:ℚ))] : List V3q).map
          (fun v => v.2.2)) ∧
      (accs.getD 1 dummyAcc).min = none ∧
      (accs.getD 1 dummyAcc).max = none) :=
  ⟨by decide, v1_position_accessor_bounds _ [0] (by decide)⟩

/-- The box-emission categories of `building_generator_v2.py`, one per
commented call site (Slab, Columns, Beams X, Beams Z, Diagonal Bracing,
Shear Walls, Core). -/
inductive Category
  | slab
  | column
  | beamX
  | beamZ
  | brace
  | wall
  | core
deriving DecidableEq

/-- The module parameters of `building_generator_v2.py` lines 9-21. -/
structure ParamsV2 where
  floors : ℕ
  floor_height : ℚ
  building_width : ℚ
  grid_size : ℕ
  column_size : ℚ
  beam_height : ℚ
  beam_width : ℚ
  slab_thickness : ℚ
  brace_thickness : ℚ
  core_size : ℚ
  wall_thickness : ℚ

/-- The parameter values hard-coded in `building_generator_v2.py`. -/
def defaultParamsV2 : ParamsV2 :=
  { floors := 5, floor_height := 3.5, building_width := 20, grid_size := 5,
    column_size := 0.4, beam_height := 0.5, beam_width := 0.4,
    slab_thickness := 0.3, brace_thickness := 0.2, core_size := 4,
    wall_thickness := 0.3 }

/-- `column_spacing = building_width / (grid_size - 1)`
(`building_generator_v2.py` line 13; exact at the shipped `grid_size = 5`). -/
def column_spacing (p : ParamsV2) : ℚ :=
  p.building_width / ((p.grid_size : ℚ) - 1)

/-- The tagged `create_box` calls one iteration of v2's floor loop (lines
72-117) issues, in program order: slab; then, on structural floors
(`f < floors-1`), the column grid, the X-direction beams, the Z-direction
beams, and the diagonal brace. -/
def v2FloorEmissions (p : ParamsV2) (f : ℕ) :
    List (Category × (List V3q × List ℕ)) :=
  let y := (f : ℚ) * p.floor_height
  let cs := column_spacing p
  [(Category.slab,
    create_box p.building_width p.slab_thickness p.building_width 0 y 0)] ++
  (if f < p.floors - 1 then
    ((List.range p.grid_size).flatMap (fun gx =>
      (List.range p.grid_size).map (fun gz =>
        (Category.column,
         create_box p.column_size p.floor_height p.column_size
           (-p.building_width/2 + (gx : ℚ) * cs)
           (y + p.floor_height/2)
           (-p.building_width/2 + (gz : ℚ) * cs))))) ++
    ((List.range p.grid_size).flatMap (fun gz =>
      (List.range (p.grid_size - 1)).map (fun gx =>
        let xs := -p.building_width/2 + (gx : ℚ) * cs
        let xe := xs + cs
        (Category.beamX,
         create_box cs p.beam_height p.beam_width
           ((xs + xe)/2) (y + p.floor_height - p.beam_height/2)
           (-p.building_width/2 + (gz : ℚ) * cs))))) ++
    ((List.range p.grid_size).flatMap (fun gx =>
      (List.range (p.grid_size - 1)).map (fun gz =>
        let zs := -p.building_width/2 + (gz : ℚ) * cs
        let ze := zs + cs
        (Category.beamZ,
         create_box p.beam_width p.beam_height cs
           (-p.building_width/2 + (gx : ℚ) * cs)
           (y + p.floor_height - p.beam_height/2)
           ((zs + ze)/2))))) ++
    [(Category.brace,
      create_box p.brace_thickness p.floor_height p.brace_thickness
        (-p.building_width/2 + cs/2) (y + p.floor_height/2)
        (-p.building_width/2 + cs/2))]
  else [])

/-- All of v2's box emissions in program order: the floor loop (lines
72-117), then the shear walls (lines 120-124), then the core (lines
127-130), tagged by category.  `add_mesh` concatenates exactly these calls'
vertices and offset indices into the single global mesh. -/
def v2Emissions (p : ParamsV2) : List (Category × (List V3q × List ℕ)) :=
  ((List.range p.floors).flatMap (fun f => v2FloorEmissions p f)) ++
  ((List.range (p.floors - 1)).map (fun f =>
    (Category.wall,
     create_box p.wall_thickness p.floor_height p.building_width
       (-p.building_width/2)
       ((f : ℚ) * p.floor_height + p.floor_height/2) 0))) ++
  ((List.range (p.floors - 1)).map (fun f =>
    (Category.core,
     create_box p.core_size p.floor_height p.core_size
       0 ((f : ℚ) * p.floor_height + p.floor_height/2) 0)))

/-- How many boxes of one category v2 emits. -/
def catCount (p : ParamsV2) (c : Category) : ℕ :=
  ((v2Emissions p).filter (fun e => e.1 = c)).length

/-- How many vertices the boxes of one category contribute. -/
def catVerts (p : ParamsV2) (c : Category) : ℕ :=
  (((v2Emissions p).filter (fun e => e.1 = c)).map
    (fun e => e.2.1.length)).sum

/-- C4: the no-LOD Structural Layout Generator (`building_generator_v2.py`)
emits beams in two perpendicular horizontal directions — per structural
floor, N lines × (N−1) intervals along each axis — so at the shipped
parameters F=5, H=3.5, W=20, N=5 the output contains 5 slabs (40 vertices),
100 columns (800 vertices), 160 beams (1280 vertices), and core and shear
wall each 4 times (one per inter-floor gap). -/
theorem v2_beam_scenario :
    (∀ f : Fin 4,
      ((v2FloorEmissions defaultParamsV2 f).filter
        (fun e => e.1 = Category.beamX)).length = 5 * 4 ∧
      ((v2FloorEmissions defaultParamsV2 f).filter
        (fun e => e.1 = Category.beamZ)).length = 5 * 4) ∧
    catCount defaultParamsV2 .slab = 5 ∧
    catVerts defaultParamsV2 .slab = 40 ∧
    catCount defaultParamsV2 .column = 100 ∧
    catVerts defaultParamsV2 .column = 800 ∧
    catCount defaultParamsV2 .beamX = 80 ∧
    catCount defaultParamsV2 .beamZ = 80 ∧
    catCount defaultParamsV2 .beamX + catCount defaultParamsV2 .beamZ = 160 ∧
    catVerts defaultParamsV2 .beamX + catVerts defaultParamsV2 .beamZ = 1280 ∧
    catCount defaultParamsV2 .core = 4 ∧
    catCount defaultParamsV2 .wall = 4 := by
  decide
